import Mathlib

/-!
Shallow embedding of the tide compiler back end (tidec_abi, tidec_lir,
tidec_codegen_ssa, tidec_codegen_llvm) and proofs about it.

Machine integers (u64, u128, usize) are modelled as `Nat` with explicit
range hypotheses or `% 2^w` where overflow matters.  Fallible Rust code
(panics, asserts, out-of-bounds indexing, `todo!`) is modelled with
`Except String`.
-/

namespace Tide

/-! Numeric helpers for the Rust integer operations used by the sources. -/

/-- The value of `u64::MAX`. -/
def u64Max : Nat := 2 ^ 64 - 1

/-- Rust's unsigned `div_ceil`: `(a + b - 1) / b`. -/
def rustDivCeil (a b : Nat) : Nat := (a + b - 1) / b

/-- Fuel-driven helper for trailing zeros; `fuel ≥ n` makes it exact. -/
def tzGo : Nat → Nat → Nat
  | 0, _ => 0
  | fuel + 1, n => if n % 2 = 1 ∨ n = 0 then 0 else tzGo fuel (n / 2) + 1

/-- Trailing zeros of a nonzero natural number (`u64::trailing_zeros` on
nonzero input). -/
def tzAux (n : Nat) : Nat := tzGo n n

/-- Rust's `u64::trailing_zeros`, which returns 64 on input 0. -/
def u64TrailingZeros (n : Nat) : Nat :=
  if n = 0 then 64 else tzAux n

/-! Embedding of `tidec_abi::size_and_align`. -/

/-- Size of a type in bytes (`Size(u64)` in `size_and_align.rs`). -/
structure Size where
  bytes : Nat
deriving DecidableEq, Repr

/-- `Size::from_bits`: rounds `bits` up to the next byte boundary, written in
the source as `bits / 8 + (bits % 8).div_ceil(8)`. -/
def Size.fromBits (bits : Nat) : Size :=
  ⟨bits / 8 + rustDivCeil (bits % 8) 8⟩

/-- Alignment of a type in bytes (`Align(u64)` in `size_and_align.rs`). -/
structure Align where
  bytes : Nat
deriving DecidableEq, Repr

/-- The error type of `Align::from_bytes`. -/
inductive AlignError where
  | TooLarge (n : Nat)
  | NotPowerOfTwo (n : Nat)
deriving DecidableEq, Repr

/-- `Align::from_bytes`: 0 is accepted as a sentinel, a non-power-of-two is
`NotPowerOfTwo`, a power of two above `u64::MAX / 8` is `TooLarge`. -/
def Align.fromBytes (align : Nat) : Except AlignError Align :=
  if align = 0 then .ok ⟨0⟩
  else if align ≠ 1 <<< u64TrailingZeros align then
    .error (.NotPowerOfTwo align)
  else if u64Max / 8 < align then .error (.TooLarge align)
  else .ok ⟨align⟩

/-- ABI and preferred alignment (`AbiAndPrefAlign` in `size_and_align.rs`). -/
structure AbiAndPrefAlign where
  abi : Align
  pref : Align
deriving DecidableEq, Repr

/-- `AbiAndPrefAlign::new` calls `Align::from_bytes(..).unwrap()` on both
arguments; the unwrap's panic on `Err` is modelled as `none`. -/
def AbiAndPrefAlign.new (abi pref : Nat) : Option AbiAndPrefAlign :=
  match Align.fromBytes abi, Align.fromBytes pref with
  | .ok a, .ok p => some ⟨a, p⟩
  | _, _ => none

/-! Embedding of `tidec_abi::target`. -/

/-- Endianness of the target (`Endianess` in `target.rs`). -/
inductive Endianess where
  | Little
  | Big
deriving DecidableEq, Repr

/-- Address spaces (`AddressSpace` in `target.rs`; only `DATA = 0`). -/
inductive AddressSpace where
  | DATA
deriving DecidableEq, Repr

/-- The `From<&AddressSpace> for u32` conversion. -/
def AddressSpace.toU32 : AddressSpace → Nat
  | .DATA => 0

/-- The target data layout (`TargetDataLayout` in `target.rs`). -/
structure TargetDataLayout where
  endianess : Endianess
  i1Align : AbiAndPrefAlign
  i8Align : AbiAndPrefAlign
  i16Align : AbiAndPrefAlign
  i32Align : AbiAndPrefAlign
  i64Align : AbiAndPrefAlign
  i128Align : AbiAndPrefAlign
  f16Align : AbiAndPrefAlign
  f32Align : AbiAndPrefAlign
  f64Align : AbiAndPrefAlign
  f128Align : AbiAndPrefAlign
  pointerSize : Nat
  pointerAlign : AbiAndPrefAlign
  aggregateAlign : AbiAndPrefAlign
  vectorAlign : List (Size × AbiAndPrefAlign)
  instructionAddressSpace : AddressSpace
deriving DecidableEq, Repr

/-- `TargetDataLayout::default`, built from the exact `AbiAndPrefAlign::new`
calls of the source; the unwraps inside `new` make the whole construction
an `Option`. -/
def TargetDataLayout.mkDefault : Option TargetDataLayout := do
  let i1 ← AbiAndPrefAlign.new 8 8
  let i8 ← AbiAndPrefAlign.new 8 8
  let i16 ← AbiAndPrefAlign.new 16 16
  let i32 ← AbiAndPrefAlign.new 32 32
  let i64 ← AbiAndPrefAlign.new 32 64
  let i128 ← AbiAndPrefAlign.new 32 64
  let f16 ← AbiAndPrefAlign.new 16 16
  let f32 ← AbiAndPrefAlign.new 32 32
  let f64 ← AbiAndPrefAlign.new 64 64
  let f128 ← AbiAndPrefAlign.new 128 128
  let ptr ← AbiAndPrefAlign.new 64 64
  let agg ← AbiAndPrefAlign.new 0 64
  let v64 ← AbiAndPrefAlign.new 64 64
  let v128 ← AbiAndPrefAlign.new 128 128
  pure
    { endianess := .Big
      i1Align := i1
      i8Align := i8
      i16Align := i16
      i32Align := i32
      i64Align := i64
      i128Align := i128
      f16Align := f16
      f32Align := f32
      f64Align := f64
      f128Align := f128
      pointerSize := 64
      pointerAlign := ptr
      aggregateAlign := agg
      vectorAlign := [(Size.fromBits 64, v64), (Size.fromBits 128, v128)]
      instructionAddressSpace := .DATA }

/-- The concrete value of the default data layout (all the unwraps succeed);
`defaultDL_eq` below checks it against `TargetDataLayout.mkDefault`. -/
def defaultDL : TargetDataLayout :=
  { endianess := .Big
    i1Align := ⟨⟨8⟩, ⟨8⟩⟩
    i8Align := ⟨⟨8⟩, ⟨8⟩⟩
    i16Align := ⟨⟨16⟩, ⟨16⟩⟩
    i32Align := ⟨⟨32⟩, ⟨32⟩⟩
    i64Align := ⟨⟨32⟩, ⟨64⟩⟩
    i128Align := ⟨⟨32⟩, ⟨64⟩⟩
    f16Align := ⟨⟨16⟩, ⟨16⟩⟩
    f32Align := ⟨⟨32⟩, ⟨32⟩⟩
    f64Align := ⟨⟨64⟩, ⟨64⟩⟩
    f128Align := ⟨⟨128⟩, ⟨128⟩⟩
    pointerSize := 64
    pointerAlign := ⟨⟨64⟩, ⟨64⟩⟩
    aggregateAlign := ⟨⟨0⟩, ⟨64⟩⟩
    vectorAlign := [(⟨8⟩, ⟨⟨64⟩, ⟨64⟩⟩), (⟨16⟩, ⟨⟨128⟩, ⟨128⟩⟩)]
    instructionAddressSpace := .DATA }

theorem defaultDL_eq : TargetDataLayout.mkDefault = some defaultDL := by decide

/-- The `format_align` closure of `as_llvm_datalayout_string`. -/
def formatAlign (name : String) (a : AbiAndPrefAlign) : String :=
  "-" ++ name ++ ":" ++ toString a.abi.bytes ++ ":" ++ toString a.pref.bytes

/-- `TargetDataLayout::as_llvm_datalayout_string`. -/
def TargetDataLayout.asLlvmDatalayoutString (dl : TargetDataLayout) : String :=
  let endian := if dl.endianess = Endianess.Little then "e" else "E"
  let ptr := "-p:" ++ toString dl.pointerSize ++ ":"
    ++ toString dl.pointerAlign.abi.bytes ++ ":" ++ toString dl.pointerAlign.pref.bytes
  let ints := formatAlign "i1" dl.i1Align ++ formatAlign "i8" dl.i8Align
    ++ formatAlign "i16" dl.i16Align ++ formatAlign "i32" dl.i32Align
    ++ formatAlign "i64" dl.i64Align ++ formatAlign "i128" dl.i128Align
  let floats := formatAlign "f16" dl.f16Align ++ formatAlign "f32" dl.f32Align
    ++ formatAlign "f64" dl.f64Align ++ formatAlign "f128" dl.f128Align
  let agg := formatAlign "a" dl.aggregateAlign
  let vecs := String.join (dl.vectorAlign.map (fun p =>
    "-v" ++ toString p.1.bytes ++ ":" ++ toString p.2.abi.bytes ++ ":"
      ++ toString p.2.pref.bytes))
  endian ++ ptr ++ ints ++ floats ++ agg ++ vecs
    ++ "-P" ++ toString dl.instructionAddressSpace.toU32

/-! Embedding of `tidec_abi::layout`. -/

/-- Primitive backend kinds (`Primitive` in `layout.rs`). -/
inductive Primitive where
  | I8
  | I16
  | I32
  | I64
  | I128
  | U8
  | U16
  | U32
  | U64
  | U128
  | F16
  | F32
  | F64
  | F128
  | Pointer (a : AddressSpace)
deriving DecidableEq, Repr

/-- Backend representation of a value (`BackendRepr` in `layout.rs`); the
`ScalarPair` variant is commented out in the source. -/
inductive BackendRepr where
  | Scalar (p : Primitive)
  | Memory
deriving DecidableEq, Repr

/-- Layout of a type (`Layout` in `layout.rs`). -/
structure Layout where
  size : Size
  align : AbiAndPrefAlign
  backendRepr : BackendRepr
deriving DecidableEq, Repr

/-- `Layout::is_zst`: a `Scalar` is never a ZST; `Memory` is a ZST iff its
size is zero bytes. -/
def Layout.isZst (l : Layout) : Bool :=
  match l.backendRepr with
  | .Scalar _ => false
  | .Memory => l.size.bytes == 0

/-- `Layout::is_immediate`. -/
def Layout.isImmediate (l : Layout) : Bool :=
  match l.backendRepr with
  | .Scalar _ => true
  | .Memory => false

/-- `Layout::is_memory`. -/
def Layout.isMemory (l : Layout) : Bool :=
  match l.backendRepr with
  | .Memory => true
  | _ => false

/-! Embedding of `tidec_lir::syntax` and `tidec_lir::lir`. -/

/-- The LIR types (`LirTy` in `syntax.rs`). -/
inductive LirTy where
  | I8
  | I16
  | I32
  | I64
  | I128
  | Metadata
deriving DecidableEq, Repr

/-- A type together with its layout (`TyAndLayout` in `layout.rs`,
instantiated at `LirTy` as the pipeline does). -/
structure TyAndLayout where
  ty : LirTy
  layout : Layout
deriving DecidableEq, Repr

/-- The concrete value of `AbiAndPrefAlign::new(1, 1)` used for
`LirTy::Metadata` in `compute_layout`. -/
def abiPrefOne : AbiAndPrefAlign := ⟨⟨1⟩, ⟨1⟩⟩

theorem abiPrefOne_eq : AbiAndPrefAlign.new 1 1 = some abiPrefOne := by decide

/-- `LayoutCtx::compute_layout` from `layout_ctx.rs`, reading the per-type
alignments from the data layout. -/
def computeLayout (dl : TargetDataLayout) : LirTy → TyAndLayout
  | .I8 => ⟨.I8, ⟨Size.fromBits 8, dl.i8Align, .Scalar .I8⟩⟩
  | .I16 => ⟨.I16, ⟨Size.fromBits 16, dl.i16Align, .Scalar .I16⟩⟩
  | .I32 => ⟨.I32, ⟨Size.fromBits 32, dl.i32Align, .Scalar .I32⟩⟩
  | .I64 => ⟨.I64, ⟨Size.fromBits 64, dl.i64Align, .Scalar .I64⟩⟩
  | .I128 => ⟨.I128, ⟨Size.fromBits 128, dl.i128Align, .Scalar .I128⟩⟩
  | .Metadata => ⟨.Metadata, ⟨Size.fromBits 0, abiPrefOne, .Memory⟩⟩

/-- A local slot's declaration (`LocalData` in `syntax.rs`). -/
structure LocalData where
  ty : LirTy
  mutable : Bool
deriving DecidableEq, Repr

/-- `RETURN_LOCAL` is the local with index 0 (`Local(0)`). -/
def RETURN_LOCAL : Nat := 0

/-- Raw bytes of a scalar constant (`RawScalarValue` in `syntax.rs`):
`data` is a `u128` whose low `size` bytes are meaningful, `size` is a
`NonZero<u8>` in `1..=16`. -/
structure RawScalarValue where
  data : Nat
  size : Nat
deriving DecidableEq, Repr

/-- `ConstScalar` from `syntax.rs` (the `Pointer` variant is commented out). -/
inductive ConstScalar where
  | Value (r : RawScalarValue)
deriving DecidableEq, Repr

/-- `ConstValue` from `syntax.rs` (the `Indirect` variant is commented out). -/
inductive ConstValue where
  | ZST
  | Scalar (s : ConstScalar)
deriving DecidableEq, Repr

/-- `ConstOperand` from `syntax.rs`. -/
inductive ConstOperand where
  | Value (v : ConstValue) (ty : LirTy)
deriving DecidableEq, Repr

/-- `Projection` from `syntax.rs` (placeholder variant only). -/
inductive Projection where
  | Todo
deriving DecidableEq, Repr

/-- `Place` from `syntax.rs`: a base local plus a projection path.  `Local`
is a `usize` newtype, modelled as `Nat`. -/
structure Place where
  localIdx : Nat
  projection : List Projection
deriving DecidableEq, Repr

/-- `RValue` from `syntax.rs`. -/
inductive RValue where
  | Const (c : ConstOperand)
deriving DecidableEq, Repr

/-- `Statement` from `syntax.rs`. -/
inductive Statement where
  | Assign (place : Place) (rvalue : RValue)
deriving DecidableEq, Repr

/-- `Terminator` from `syntax.rs`. -/
inductive Terminator where
  | Return
deriving DecidableEq, Repr

/-- `BasicBlockData` from `basic_blocks.rs`. -/
structure BasicBlockData where
  statements : List Statement
  terminator : Terminator
deriving DecidableEq, Repr

/-- `DefId` from `lir.rs`: an opaque unit-unique `usize`. -/
structure DefId where
  idx : Nat
deriving DecidableEq, Repr

/-- `Linkage` from `lir.rs`. -/
inductive Linkage where
  | Private
  | Internal
  | AvailableExternally
  | LinkOnce
  | Weak
  | Common
  | Appending
  | ExternWeak
  | LinkOnceODR
  | WeakODR
  | External
deriving DecidableEq, Repr

/-- `Visibility` from `lir.rs`. -/
inductive Visibility where
  | Default
  | Hidden
  | Protected
deriving DecidableEq, Repr

/-- `UnnamedAddress` from `lir.rs`. -/
inductive UnnamedAddress where
  | None
  | Local
  | Global
deriving DecidableEq, Repr

/-- `CallConv` from `lir.rs`: opaque calling-convention tags handed to the
backend unchanged. -/
inductive CallConv where
  | C
  | Rust
  | Fast
  | Cold
  | GHC
  | HiPE
  | AnyReg
  | PreserveMost
  | PreserveAll
  | Swift
  | CxxFastTls
  | Tail
  | CfguardCheck
  | SwiftTail
  | PreserveNone
  | FirstTargetCC
  | X86StdCall
  | X86FastCall
  | ArmApcs
  | ArmAapcs
  | ArmAapcsVfp
  | Msp430Intr
  | X86ThisCall
  | PtxKernel
  | PtxDevice
  | SpirFunc
  | SpirKernel
  | IntelOclBi
  | X86sixtyfourSysV
  | Win64
  | X86VectorCall
  | DummyHhvm
  | DummyHhvmC
  | X86Intr
  | AvrIntr
  | AvrSignal
  | AvrBuiltin
  | AmdgpuVs
  | AmdgpuGs
  | AmdgpuPs
  | AmdgpuCs
  | AmdgpuKernel
  | X86RegCall
  | AmdgpuHs
  | Msp430Builtin
  | AmdgpuLs
  | AmdgpuEs
  | Aarch64VectorCall
  | Aarch64SveVectorCall
  | WasmEmscriptenInvoke
  | AmdgpuGfx
  | M68kIntr
  | Aarch64SmeAbiSupportRoutinesPreserveMostFromX0
  | Aarch64SmeAbiSupportRoutinesPreserveMostFromX2
  | AmdgpuCsChain
  | AmdgpuCsChainPreserve
  | M68kRtd
  | GRAAL
  | Arm64ecThunkX64
  | Arm64ecThunkNative
  | RiscvVectorCall
  | Aarch64SmeAbiSupportRoutinesPreserveMostFromX1
  | MaxID
deriving DecidableEq, Repr

/-- `LirItemKind` from `lir.rs`. -/
inductive LirItemKind where
  | Function
  | Closure
  | Coroutine
deriving DecidableEq, Repr

/-- `LirBodyKind` from `lir.rs`. -/
inductive LirBodyKind where
  | Item (k : LirItemKind)
deriving DecidableEq, Repr

/-- `LirBodyMetadata` from `lir.rs`. -/
structure LirBodyMetadata where
  defId : DefId
  name : String
  kind : LirBodyKind
  inlined : Bool
  linkage : Linkage
  visibility : Visibility
  unnamedAddress : UnnamedAddress
  callConv : CallConv
deriving DecidableEq, Repr

/-- `LirBody` from `lir.rs`: `ret_and_args[0]` is the return slot, the rest
are the formal parameters; `locals` are the remaining locals. -/
structure LirBody where
  metadata : LirBodyMetadata
  retAndArgs : List LocalData
  locals : List LocalData
  basicBlocks : List BasicBlockData
deriving DecidableEq, Repr

/-- `LirUnit` from `lir.rs` (the unit name is its only metadata). -/
structure LirUnit where
  unitName : String
  bodies : List LirBody
deriving DecidableEq, Repr

/-! Embedding of `tidec_abi::calling_convention::function` and the
`fn_abi_of` implementation from `tidec_codegen_llvm/src/context.rs`. -/

/-- `PassMode` from `function.rs`. -/
inductive PassMode where
  | Ignore
  | Direct
  | Indirect
deriving DecidableEq, Repr

/-- `ArgAbi` from `function.rs`. -/
structure ArgAbi where
  layout : TyAndLayout
  mode : PassMode
deriving DecidableEq, Repr

/-- `FnAbi` from `function.rs`. -/
structure FnAbi where
  args : List ArgAbi
  ret : ArgAbi
deriving DecidableEq, Repr

/-- The `argument_of` closure of `fn_abi_of` in `context.rs`: `Scalar`
layouts pass `Direct`, `Memory` layouts pass `Indirect`, and a ZST layout
overrides the mode to `Ignore`. -/
def argumentOf (dl : TargetDataLayout) (ty : LirTy) : ArgAbi :=
  let layout := computeLayout dl ty
  let passMode :=
    match layout.layout.backendRepr with
    | .Scalar _ => PassMode.Direct
    | .Memory => PassMode.Indirect
  let arg : ArgAbi := ⟨layout, passMode⟩
  if arg.layout.layout.isZst then { arg with mode := .Ignore } else arg

/-- `fn_abi_of` from `context.rs`: the entry at `RETURN_LOCAL` becomes
`ret`, the remaining entries become `args`.  Indexing `ret_and_args` at
`RETURN_LOCAL` panics on an empty vector, modelled as an error. -/
def fnAbiOf (dl : TargetDataLayout) (retAndArgs : List LocalData) :
    Except String FnAbi :=
  match retAndArgs with
  | [] => .error "index out of bounds: ret_and_args[RETURN_LOCAL]"
  | r :: rest =>
    .ok ⟨rest.map (fun ld => argumentOf dl ld.ty), argumentOf dl r.ty⟩

/-! Embedding of `tidec_codegen_ssa::lir` (places, operands, locals,
allocation) over an abstract backend value type `V`. -/

/-- `PlaceVal` from `codegen_ssa/src/lir.rs`: a backend value plus its
alignment. -/
structure PlaceVal (V : Type) where
  value : V
  align : Align
deriving DecidableEq, Repr

/-- `PlaceRef` from `codegen_ssa/src/lir.rs`. -/
structure PlaceRef (V : Type) where
  placeVal : PlaceVal V
  tyLayout : TyAndLayout
deriving DecidableEq, Repr

/-- `OperandVal` from `codegen_ssa/src/lir.rs`. -/
inductive OperandVal (V : Type) where
  | Zst
  | Immediate (v : V)
  | Pair (a b : V)
  | Ref (p : PlaceVal V)
deriving DecidableEq, Repr

/-- `OperandRef` from `codegen_ssa/src/lir.rs`. -/
structure OperandRef (V : Type) where
  operandVal : OperandVal V
  tyLayout : TyAndLayout
deriving DecidableEq, Repr

/-- `OperandRef::new_zst`. -/
def OperandRef.newZst {V : Type} (tl : TyAndLayout) : OperandRef V :=
  ⟨.Zst, tl⟩

/-- `OperandRef::new_immediate`. -/
def OperandRef.newImmediate {V : Type} (v : V) (tl : TyAndLayout) :
    OperandRef V :=
  ⟨.Immediate v, tl⟩

/-- `LocalRef` from `codegen_ssa/src/lir.rs`. -/
inductive LocalRef (V : Type) where
  | PlaceRef (p : PlaceRef V)
  | OperandRef (o : OperandRef V)
  | PendingOperandRef
deriving DecidableEq, Repr

/-- `PlaceVal::alloca`: the builder allocates `size` bytes at `align`; the
builder's `alloca` method is abstracted by `mkValue`. -/
def PlaceVal.alloca {V : Type} (mkValue : Size → Align → V)
    (size : Size) (align : Align) : PlaceVal V :=
  ⟨mkValue size align, align⟩

/-- `PlaceRef::alloca` from `codegen_ssa/src/lir.rs`: it asserts
`!ty_and_layout.is_zst()` before allocating `layout.size` bytes at the ABI
alignment; the assert's panic is modelled as an error. -/
def PlaceRef.alloca {V : Type} (mkValue : Size → Align → V)
    (tl : TyAndLayout) : Except String (PlaceRef V) :=
  if tl.layout.isZst then
    .error "assertion failed: !ty_and_layout.is_zst()"
  else
    .ok ⟨PlaceVal.alloca mkValue tl.layout.size tl.layout.align.abi, tl⟩

/-- The loop body of the `allocate_locals` closure in `codegen_lir_body`
(`codegen_ssa/src/lir.rs`): `is_memory` layouts get a `PlaceRef` via
`alloca`, otherwise `is_zst` layouts get a ZST `OperandRef`, and the rest
become `PendingOperandRef`. -/
def allocateLocalRef {V : Type} (mkValue : Size → Align → V)
    (dl : TargetDataLayout) (ld : LocalData) : Except String (LocalRef V) :=
  let layout := computeLayout dl ld.ty
  if layout.layout.isMemory then
    (PlaceRef.alloca mkValue layout).map .PlaceRef
  else if layout.layout.isZst then
    .ok (.OperandRef (OperandRef.newZst layout))
  else
    .ok .PendingOperandRef

/-- The `allocate_locals` closure applied to a whole local table. -/
def allocateLocals {V : Type} (mkValue : Size → Align → V)
    (dl : TargetDataLayout) (locals : List LocalData) :
    Except String (List (LocalRef V)) :=
  locals.mapM (allocateLocalRef mkValue dl)

/-! Embedding of `FnCtx::codegen_consume` and
`FnCtx::codegen_return_terminator` from `codegen_ssa/src/entry.rs`.  The
builder's `load_operand` trait method is abstracted by a function
parameter, as the pipeline is generic over the backend. -/

/-- `codegen_consume`: the layout is looked up by indexing
`lir_body.ret_and_args` with the local (an out-of-bounds index panics);
ZST layouts yield a fresh ZST operand; otherwise the `LocalRef` entry in
`FnCtx.locals` is consulted, and a `PendingOperandRef` is a fatal
use-before-define. -/
def codegenConsume {V : Type} (dl : TargetDataLayout)
    (loadOperand : PlaceRef V → OperandRef V) (lirBody : LirBody)
    (fnLocals : List (LocalRef V)) (localIdx : Nat) :
    Except String (OperandRef V) :=
  match lirBody.retAndArgs[localIdx]? with
  | none => .error "index out of bounds: ret_and_args[local]"
  | some ld =>
    let layout := computeLayout dl ld.ty
    if layout.layout.isZst then
      .ok (OperandRef.newZst layout)
    else
      match fnLocals[localIdx]? with
      | none => .error "index out of bounds: locals[local]"
      | some (.OperandRef o) => .ok o
      | some (.PlaceRef p) => .ok (loadOperand p)
      | some .PendingOperandRef =>
        .error "cannot consume a pending operand ref before it is defined"

/-- `codegen_return_terminator`: `Ignore` and `Indirect` return modes emit
`build_return(None)`; `Direct` consumes `RETURN_LOCAL` and emits
`build_return(Some(v))` for an `Immediate(v)`, while the `Zst`, `Ref` and
`Pair` operand values hit `todo!`.  The result is the argument passed to
`build_return`. -/
def codegenReturnTerminator {V : Type} (dl : TargetDataLayout)
    (loadOperand : PlaceRef V → OperandRef V) (fnAbi : FnAbi)
    (lirBody : LirBody) (fnLocals : List (LocalRef V)) :
    Except String (Option V) :=
  match fnAbi.ret.mode with
  | .Ignore | .Indirect => .ok none
  | .Direct =>
    (codegenConsume dl loadOperand lirBody fnLocals RETURN_LOCAL).bind
      fun operandRef =>
        match operandRef.operandVal with
        | .Zst => .error "todo: handle return of ZST"
        | .Ref _ => .error "todo: handle return by reference"
        | .Pair _ _ => .error "todo: handle return of pair"
        | .Immediate v => .ok (some v)

/-! Embedding of the LLVM constant materialization
(`const_scalar_to_backend_value` in `codegen_llvm/src/builder.rs`).  LLVM
integer constant values are modelled as a bit width plus a value reduced
modulo `2^width`. -/

/-- Modelled from the spec: an LLVM integer constant (the inkwell
`IntValue` handles are outside `src/`); per §4.H the backend "builds an
i128 constant from the raw 128-bit payload, then truncates to the target
integer width". -/
structure IntConst where
  width : Nat
  value : Nat
deriving DecidableEq, Repr

/-- The low `nbits` bits of a backend integer constant. -/
def IntConst.lowBits (c : IntConst) (nbits : Nat) : Nat :=
  c.value % 2 ^ nbits

/-- `LirTy::into_basic_type` from `codegen_llvm/src/lir/types.rs`, reduced
to the bit width of the LLVM integer type it returns; `Metadata` panics. -/
def LirTy.intoBasicTypeWidth : LirTy → Except String Nat
  | .I8 => .ok 8
  | .I16 => .ok 16
  | .I32 => .ok 32
  | .I64 => .ok 64
  | .I128 => .ok 128
  | .Metadata => .error "Metadata type cannot be converted to BasicTypeEnum"

/-- Modelled from the spec: `RawScalarValue::to_bits` is not under `src/`
(only its call in `const_scalar_to_backend_value` is); per §7 a
`RawScalarValue.size` inconsistent with the layout size is fatal
(`ConstScalarSizeMismatch`), otherwise the raw 128-bit payload is
returned. -/
def RawScalarValue.toBits (r : RawScalarValue) (target : Size) :
    Except String Nat :=
  if r.size = target.bytes then .ok r.data
  else .error "ConstScalarSizeMismatch"

/-- `const_scalar_to_backend_value` from `codegen_llvm/src/builder.rs`: it
asserts a `Scalar` backend repr, resolves the LLVM type of `ty_layout.ty`,
takes the raw bits, splits them into two little-endian 64-bit words for
`const_int_arbitrary_precision`, and truncate-or-bitcasts the i128
constant to the target integer type.  The `Pointer` primitive branch is
unreachable for layouts produced by `compute_layout` and is modelled as an
error. -/
def constScalarToBackendValue (tyLayout : TyAndLayout) (cs : ConstScalar) :
    Except String IntConst :=
  match tyLayout.layout.backendRepr with
  | .Memory => .error "assertion failed: matches Scalar backend repr"
  | .Scalar p =>
    match cs with
    | .Value rawScalarValue =>
      (tyLayout.ty.intoBasicTypeWidth).bind fun w =>
        (rawScalarValue.toBits tyLayout.layout.size).bind fun bits =>
          let word0 := bits % 2 ^ 64
          let word1 := (bits / 2 ^ 64) % 2 ^ 64
          let llval : IntConst := ⟨128, word0 + word1 * 2 ^ 64⟩
          match p with
          | .Pointer _ => .error "pointer constants are not modelled"
          | _ => .ok ⟨w, llval.value % 2 ^ w⟩

/-! Embedding of the per-unit compile from
`codegen_ssa/src/entry.rs::compile_lir_unit` and the `DefId` instance map
from `codegen_llvm/src/context.rs`.  Only the interactions with the
`instances` map and the module's function table are modelled; the
instrumentation records each map insert (with the keys present before it)
and each `get_fn` observation made while defining a body. -/

/-- The map-relevant state of `CodegenCtx`: the keys of the
`DefId → FunctionValue` instances map, and the names registered in the
LLVM module by `add_function`. -/
structure CgState where
  instances : List DefId
  moduleFns : List String
deriving DecidableEq, Repr

/-- Events recorded while compiling a unit: a map insert (with the key set
before the insert) or a `get_fn` observation during a define. -/
inductive CgEvent where
  | Insert (pre : List DefId) (key : DefId)
  | GetFn (found : Bool)
deriving DecidableEq, Repr

/-- `HashMap::insert` restricted to its key set: inserting an existing key
overwrites its value and leaves the key set unchanged. -/
def insertKey (l : List DefId) (k : DefId) : List DefId :=
  if k ∈ l then l else k :: l

/-- `get_fn` from `context.rs`: found if the `DefId` is in the instances
map, or the name is among the module's functions. -/
def getFn (st : CgState) (md : LirBodyMetadata) : Bool :=
  decide (md.defId ∈ st.instances) || decide (md.name ∈ st.moduleFns)

/-- `predefine_body` from `context.rs`: adds the function (by name) to the
module and inserts its `DefId` into the instances map; the insert event
records the keys present before it. -/
def predefineBody (st : CgState) (md : LirBodyMetadata) :
    CgState × CgEvent :=
  (⟨insertKey st.instances md.defId, md.name :: st.moduleFns⟩,
   .Insert st.instances md.defId)

/-- The map interactions of `define_body` (via `codegen_lir_body`'s
`get_or_define_fn`): observe `get_fn`; on a miss, predefine the body
(the predefine-on-miss path). -/
def defineBody (st : CgState) (b : LirBody) : CgState × List CgEvent :=
  if getFn st b.metadata then
    (st, [.GetFn true])
  else
    let (st', e) := predefineBody st b.metadata
    (st', [.GetFn false, e])

/-- The first loop of `compile_lir_unit`: predefine every body in order. -/
def runPredefines (st : CgState) : List LirBody → CgState × List CgEvent
  | [] => (st, [])
  | b :: rest =>
    let (st', e) := predefineBody st b.metadata
    let (stf, es) := runPredefines st' rest
    (stf, e :: es)

/-- The second loop of `compile_lir_unit`: define every body in order. -/
def runDefines (st : CgState) : List LirBody → CgState × List CgEvent
  | [] => (st, [])
  | b :: rest =>
    let (st', es1) := defineBody st b
    let (stf, es2) := runDefines st' rest
    (stf, es1 ++ es2)

/-- `compile_lir_unit` from `codegen_ssa/src/entry.rs`: all predefines,
then all defines, starting from a fresh context. -/
def compileLirUnit (unit : LirUnit) : CgState × List CgEvent :=
  let (st1, es1) := runPredefines ⟨[], []⟩ unit.bodies
  let (st2, es2) := runDefines st1 unit.bodies
  (st2, es1 ++ es2)

/-! Helper lemmas about trailing zeros and powers of two. -/

theorem tzGo_two_pow : ∀ (k fuel : Nat), 2 ^ k ≤ fuel → tzGo fuel (2 ^ k) = k := by
  intro k
  induction k with
  | zero =>
    intro fuel hf
    cases fuel with
    | zero => simp at hf
    | succ f => simp [tzGo]
  | succ k ih =>
    intro fuel hf
    have hpos : 1 ≤ 2 ^ k := Nat.one_le_two_pow
    have h2 : 2 ^ (k + 1) = 2 ^ k * 2 := by rw [Nat.pow_succ]
    cases fuel with
    | zero => exact absurd hf (Nat.not_le.mpr (by positivity))
    | succ f =>
      have hmod : 2 ^ (k + 1) % 2 = 0 := by rw [h2]; exact Nat.mul_mod_left (2 ^ k) 2
      have hne : 2 ^ (k + 1) ≠ 0 := by positivity
      have hdiv : 2 ^ (k + 1) / 2 = 2 ^ k := by rw [h2]; exact Nat.mul_div_cancel _ (by omega)
      have hfuel : 2 ^ k ≤ f := by omega
      simp only [tzGo]
      rw [if_neg (by omega), hdiv, ih f hfuel]

theorem tzAux_two_pow (k : Nat) : tzAux (2 ^ k) = k :=
  tzGo_two_pow k (2 ^ k) le_rfl

theorem u64TrailingZeros_two_pow (k : Nat) : u64TrailingZeros (2 ^ k) = k := by
  unfold u64TrailingZeros
  rw [if_neg (by positivity), tzAux_two_pow]

/-! C6 -/

/-- C6: `Align::from_bytes(a)` returns `NotPowerOfTwo` for every nonzero
`a` that is not a power of two, `TooLarge` for every power of two above
`u64::MAX / 8`, `Ok` for every other power of two, and, for `a = 0`, the
sentinel `Align(0)` (the "natural" 1-byte alignment marker) without
error. -/
theorem align_fromBytes_spec (a : Nat) (ha : a < 2 ^ 64) :
    (a = 0 → Align.fromBytes a = .ok ⟨0⟩) ∧
    (a ≠ 0 → (¬ ∃ k, a = 2 ^ k) →
      Align.fromBytes a = .error (.NotPowerOfTwo a)) ∧
    ((∃ k, a = 2 ^ k) → u64Max / 8 < a →
      Align.fromBytes a = .error (.TooLarge a)) ∧
    ((∃ k, a = 2 ^ k) → a ≤ u64Max / 8 → Align.fromBytes a = .ok ⟨a⟩) := by
  refine ⟨?_, ?_, ?_, ?_⟩
  · intro h0
    subst h0
    rfl
  · intro h0 hnp
    unfold Align.fromBytes
    rw [if_neg h0, if_pos]
    intro heq
    refine hnp ⟨u64TrailingZeros a, ?_⟩
    nth_rewrite 1 [heq]
    rw [Nat.one_shiftLeft]
  · rintro ⟨k, rfl⟩ hlarge
    have hcond : ¬ (2 ^ k ≠ 1 <<< u64TrailingZeros (2 ^ k)) := by
      rw [u64TrailingZeros_two_pow, Nat.one_shiftLeft]
      simp
    unfold Align.fromBytes
    rw [if_neg (by positivity), if_neg hcond, if_pos hlarge]
  · rintro ⟨k, rfl⟩ hsmall
    have hcond : ¬ (2 ^ k ≠ 1 <<< u64TrailingZeros (2 ^ k)) := by
      rw [u64TrailingZeros_two_pow, Nat.one_shiftLeft]
      simp
    unfold Align.fromBytes
    rw [if_neg (by positivity), if_neg hcond, if_neg (Nat.not_lt.mpr hsmall)]

/-- Witness for C6: `Align::from_bytes(4)` succeeds with `Align(4)`. -/
theorem align_fromBytes_spec_witness :
    4 < 2 ^ 64 ∧ Align.fromBytes 4 = .ok ⟨4⟩ :=
  ⟨by decide, (align_fromBytes_spec 4 (by decide)).2.2.2 ⟨2, rfl⟩ (by decide)⟩

/-! C5 -/

set_option maxRecDepth 100000

/-- Counterexample for C5: the serialized default data layout contains
none of the claimed fragments `-p:64:8:8`, `-i32:4:4`, `-i64:4:8`,
`-v64:8:8`; the alignments are serialized via `Align::bytes()` on values
the default constructor fed to `AbiAndPrefAlign::new` as byte counts, so
the pointer entry reads `-p:64:64:64`. -/
theorem llvm_datalayout_string_claim_false :
    ¬ ("-p:64:8:8".toList <:+:
        (TargetDataLayout.asLlvmDatalayoutString defaultDL).toList) ∧
    ¬ ("-i32:4:4".toList <:+:
        (TargetDataLayout.asLlvmDatalayoutString defaultDL).toList) ∧
    ¬ ("-i64:4:8".toList <:+:
        (TargetDataLayout.asLlvmDatalayoutString defaultDL).toList) ∧
    ¬ ("-v64:8:8".toList <:+:
        (TargetDataLayout.asLlvmDatalayoutString defaultDL).toList) := by
  decide

/-- C5 (amended): the serialized default data layout starts with `E`,
contains `-p:64:64:64` for the default pointer, contains `-i32:32:32`,
`-i64:32:64` and `-v8:64:64`, and ends with `-P0`; in full it is
`E-p:64:64:64-i1:8:8-i8:8:8-i16:16:16-i32:32:32-i64:32:64-i128:32:64-f16:16:16-f32:32:32-f64:64:64-f128:128:128-a:0:64-v8:64:64-v16:128:128-P0`. -/
theorem llvm_datalayout_string_amended :
    ("E".toList <+:
        (TargetDataLayout.asLlvmDatalayoutString defaultDL).toList) ∧
    ("-p:64:64:64".toList <:+:
        (TargetDataLayout.asLlvmDatalayoutString defaultDL).toList) ∧
    ("-i32:32:32".toList <:+:
        (TargetDataLayout.asLlvmDatalayoutString defaultDL).toList) ∧
    ("-i64:32:64".toList <:+:
        (TargetDataLayout.asLlvmDatalayoutString defaultDL).toList) ∧
    ("-v8:64:64".toList <:+:
        (TargetDataLayout.asLlvmDatalayoutString defaultDL).toList) ∧
    ("-P0".toList <:+
        (TargetDataLayout.asLlvmDatalayoutString defaultDL).toList) := by
  decide

/-! C1 -/

/-- C1 (code bug): allocating the locals of a body whose return local has
the ZST type `LirTy::Metadata` does not produce `LocalRef::OperandRef` of
a ZST operand; the `is_memory` branch is taken first (a ZST layout always
has `BackendRepr::Memory`), and `PlaceRef::alloca` fails its own
`assert!(!ty_and_layout.is_zst())`. -/
theorem zst_local_allocation_hits_alloca_assert :
    allocateLocals (V := Unit) (fun _ _ => ()) defaultDL
        [⟨LirTy.Metadata, false⟩] =
      .error "assertion failed: !ty_and_layout.is_zst()" := by
  rfl

/-! C4 -/

/-- The `PassMode` classification table, stated on layout properties:
ZST layouts are `Ignore`, scalar (immediate) layouts are `Direct`,
non-ZST memory layouts are `Indirect`. -/
def argClassOk (a : ArgAbi) : Prop :=
  (a.layout.layout.isZst = true → a.mode = .Ignore) ∧
  (a.layout.layout.isImmediate = true → a.mode = .Direct) ∧
  (a.layout.layout.isMemory = true → a.layout.layout.isZst = false →
    a.mode = .Indirect)

theorem argumentOf_classOk (dl : TargetDataLayout) (ty : LirTy) :
    argClassOk (argumentOf dl ty) := by
  cases ty <;>
    simp [argClassOk, argumentOf, computeLayout, Layout.isZst,
      Layout.isImmediate, Layout.isMemory, Size.fromBits, rustDivCeil]

/-- C4: for a nonempty `ret_and_args`, `fn_abi_of` produces an `FnAbi`
with `ret_and_args.length - 1` argument entries; entry 0 becomes `ret` and
entry `i + 1` becomes `args[i]`; every produced `ArgAbi` follows the
`PassMode` table (`Ignore` for ZST, `Direct` for scalar, `Indirect` for
non-ZST memory layouts). -/
theorem fn_abi_of_spec (dl : TargetDataLayout) (retAndArgs : List LocalData)
    (h : retAndArgs ≠ []) :
    ∃ abi, fnAbiOf dl retAndArgs = .ok abi ∧
      abi.args.length = retAndArgs.length - 1 ∧
      (∀ ld, retAndArgs[0]? = some ld → abi.ret = argumentOf dl ld.ty) ∧
      (∀ i ld, retAndArgs[i + 1]? = some ld →
        abi.args[i]? = some (argumentOf dl ld.ty)) ∧
      argClassOk abi.ret ∧ (∀ a ∈ abi.args, argClassOk a) := by
  obtain ⟨r, rest, rfl⟩ : ∃ r rest, retAndArgs = r :: rest := by
    cases retAndArgs with
    | nil => exact absurd rfl h
    | cons r rest => exact ⟨r, rest, rfl⟩
  refine ⟨⟨rest.map (fun ld : LocalData => argumentOf dl ld.ty),
    argumentOf dl r.ty⟩, rfl, by simp, ?_, ?_, argumentOf_classOk dl r.ty, ?_⟩
  · intro ld hld
    simp only [List.getElem?_cons_zero, Option.some.injEq] at hld
    subst hld
    rfl
  · intro i ld hld
    simp only [List.getElem?_cons_succ] at hld
    simp [List.getElem?_map, hld]
  · intro a ha
    obtain ⟨ld, _, rfl⟩ := List.mem_map.mp ha
    exact argumentOf_classOk dl ld.ty

/-- Witness for C4 at `ret_and_args = [I32, I64, Metadata]`. -/
theorem fn_abi_of_spec_witness :
    (([⟨.I32, true⟩, ⟨.I64, true⟩, ⟨.Metadata, true⟩] : List LocalData) ≠ []) ∧
    (∃ abi, fnAbiOf defaultDL
        [⟨.I32, true⟩, ⟨.I64, true⟩, ⟨.Metadata, true⟩] = .ok abi ∧
      abi.args.length =
        ([⟨.I32, true⟩, ⟨.I64, true⟩, ⟨.Metadata, true⟩] :
          List LocalData).length - 1 ∧
      (∀ ld, ([⟨.I32, true⟩, ⟨.I64, true⟩, ⟨.Metadata, true⟩] :
          List LocalData)[0]? = some ld →
        abi.ret = argumentOf defaultDL ld.ty) ∧
      (∀ i ld, ([⟨.I32, true⟩, ⟨.I64, true⟩, ⟨.Metadata, true⟩] :
          List LocalData)[i + 1]? = some ld →
        abi.args[i]? = some (argumentOf defaultDL ld.ty)) ∧
      argClassOk abi.ret ∧ (∀ a ∈ abi.args, argClassOk a)) :=
  ⟨by decide, fn_abi_of_spec defaultDL _ (by decide)⟩

/-! Concrete bodies used by the witnesses below. -/

/-- A function body metadata record used by concrete witnesses. -/
def mdFoo : LirBodyMetadata :=
  ⟨⟨0⟩, "foo", .Item .Function, false, .External, .Default, .None, .C⟩

/-- A body returning `I32` with no extra locals. -/
def bodyRetI32 : LirBody := ⟨mdFoo, [⟨.I32, true⟩], [], [⟨[], .Return⟩]⟩

/-- A body returning `I32` with one extra (non-argument) local. -/
def bodyRetI32Extra : LirBody :=
  ⟨mdFoo, [⟨.I32, true⟩], [⟨.I64, true⟩], [⟨[], .Return⟩]⟩

/-! C3 -/

/-- C3: lowering the `Return` terminator emits `build_return(None)` when
the `FnAbi` return mode is `Ignore` or `Indirect`, and `build_return(Some
v)` when the mode is `Direct` and consuming `RETURN_LOCAL` yields an
`Immediate(v)` operand value. -/
theorem return_terminator_lowering {V : Type}
    (loadOperand : PlaceRef V → OperandRef V) (fnAbi : FnAbi)
    (lirBody : LirBody) (fnLocals : List (LocalRef V)) :
    ((fnAbi.ret.mode = .Ignore ∨ fnAbi.ret.mode = .Indirect) →
      codegenReturnTerminator defaultDL loadOperand fnAbi lirBody fnLocals =
        .ok none) ∧
    (∀ opRef v, fnAbi.ret.mode = .Direct →
      codegenConsume defaultDL loadOperand lirBody fnLocals RETURN_LOCAL =
        .ok opRef →
      opRef.operandVal = .Immediate v →
      codegenReturnTerminator defaultDL loadOperand fnAbi lirBody fnLocals =
        .ok (some v)) := by
  constructor
  · rintro (h | h) <;> simp [codegenReturnTerminator, h]
  · intro opRef v hd hc hi
    simp [codegenReturnTerminator, hd, hc, Except.bind, hi]

/-- Witness for C3: a `Direct` `I32` return whose return local holds the
immediate 7 lowers to `build_return(Some 7)`. -/
theorem return_terminator_lowering_witness :
    ((⟨[], ⟨computeLayout defaultDL .I32, .Direct⟩⟩ : FnAbi).ret.mode =
      .Direct) ∧
    (codegenConsume (V := Nat) defaultDL (fun p => OperandRef.newZst p.tyLayout)
        bodyRetI32 [.OperandRef ⟨.Immediate 7, computeLayout defaultDL .I32⟩]
        RETURN_LOCAL =
      .ok ⟨.Immediate 7, computeLayout defaultDL .I32⟩) ∧
    codegenReturnTerminator (V := Nat) defaultDL
        (fun p => OperandRef.newZst p.tyLayout)
        ⟨[], ⟨computeLayout defaultDL .I32, .Direct⟩⟩ bodyRetI32
        [.OperandRef ⟨.Immediate 7, computeLayout defaultDL .I32⟩] =
      .ok (some 7) :=
  ⟨rfl, rfl,
    (return_terminator_lowering (fun p => OperandRef.newZst p.tyLayout)
        ⟨[], ⟨computeLayout defaultDL .I32, .Direct⟩⟩ bodyRetI32
        [.OperandRef ⟨.Immediate 7, computeLayout defaultDL .I32⟩]).2
      ⟨.Immediate 7, computeLayout defaultDL .I32⟩ 7 rfl rfl rfl⟩

/-! C8 -/

/-- C8: `codegen_consume` on an in-bounds `ret_and_args` local returns a
fresh ZST operand when the layout is a ZST; otherwise it copies an
`OperandRef`, loads through a `PlaceRef` via `load_operand`, and fails
fatally on a `PendingOperandRef` (use before define). -/
theorem consume_local_cases {V : Type}
    (loadOperand : PlaceRef V → OperandRef V) (lirBody : LirBody)
    (fnLocals : List (LocalRef V)) (localIdx : Nat) (ld : LocalData)
    (hld : lirBody.retAndArgs[localIdx]? = some ld) :
    ((computeLayout defaultDL ld.ty).layout.isZst = true →
      codegenConsume defaultDL loadOperand lirBody fnLocals localIdx =
        .ok (OperandRef.newZst (computeLayout defaultDL ld.ty))) ∧
    ((computeLayout defaultDL ld.ty).layout.isZst = false →
      (∀ o, fnLocals[localIdx]? = some (.OperandRef o) →
        codegenConsume defaultDL loadOperand lirBody fnLocals localIdx =
          .ok o) ∧
      (∀ p, fnLocals[localIdx]? = some (.PlaceRef p) →
        codegenConsume defaultDL loadOperand lirBody fnLocals localIdx =
          .ok (loadOperand p)) ∧
      (fnLocals[localIdx]? = some .PendingOperandRef →
        codegenConsume defaultDL loadOperand lirBody fnLocals localIdx =
          .error "cannot consume a pending operand ref before it is defined")) := by
  constructor
  · intro hz
    simp [codegenConsume, hld, hz]
  · intro hz
    refine ⟨?_, ?_, ?_⟩
    · intro o ho
      simp [codegenConsume, hld, hz, ho]
    · intro p hp
      simp [codegenConsume, hld, hz, hp]
    · intro hp
      simp [codegenConsume, hld, hz, hp]

/-- Witness for C8: consuming a never-assigned scalar local fails. -/
theorem consume_local_cases_witness :
    (bodyRetI32.retAndArgs[0]? = some ⟨.I32, true⟩) ∧
    ((computeLayout defaultDL LirTy.I32).layout.isZst = false) ∧
    (([LocalRef.PendingOperandRef] :
        List (LocalRef Unit))[0]? = some .PendingOperandRef) ∧
    codegenConsume (V := Unit) defaultDL (fun p => OperandRef.newZst p.tyLayout)
        bodyRetI32 [.PendingOperandRef] 0 =
      .error "cannot consume a pending operand ref before it is defined" :=
  ⟨rfl, rfl, rfl,
    ((consume_local_cases (fun p => OperandRef.newZst p.tyLayout) bodyRetI32
        [.PendingOperandRef] 0 ⟨.I32, true⟩ rfl).2 rfl).2.2 rfl⟩

/-! C10 -/

/-- C10: `codegen_consume` looks the layout up by indexing
`lir_body.ret_and_args` with the local, so for every local whose index is
at least `ret_and_args.length` — in particular every local of the body's
`locals` table, which `codegen_lir_body` appends after `ret_and_args` in
`FnCtx.locals` — the lookup indexes out of bounds and the operation fails
even though the local exists in the body. -/
theorem consume_extra_local_out_of_bounds {V : Type}
    (loadOperand : PlaceRef V → OperandRef V) (lirBody : LirBody)
    (fnLocals : List (LocalRef V)) (localIdx : Nat)
    (h1 : lirBody.retAndArgs.length ≤ localIdx)
    (h2 : localIdx < lirBody.retAndArgs.length + lirBody.locals.length) :
    codegenConsume defaultDL loadOperand lirBody fnLocals localIdx =
      .error "index out of bounds: ret_and_args[local]" := by
  have hnone : lirBody.retAndArgs[localIdx]? = none :=
    List.getElem?_eq_none h1
  simp [codegenConsume, hnone]

/-- Witness for C10: local 1 of a body with one return slot and one extra
local exists but makes `codegen_consume` fail. -/
theorem consume_extra_local_out_of_bounds_witness :
    (bodyRetI32Extra.retAndArgs.length ≤ 1) ∧
    (1 < bodyRetI32Extra.retAndArgs.length + bodyRetI32Extra.locals.length) ∧
    codegenConsume (V := Unit) defaultDL (fun p => OperandRef.newZst p.tyLayout)
        bodyRetI32Extra [.PendingOperandRef, .PendingOperandRef] 1 =
      .error "index out of bounds: ret_and_args[local]" :=
  ⟨by decide, by decide,
    consume_extra_local_out_of_bounds (fun p => OperandRef.newZst p.tyLayout)
      bodyRetI32Extra [.PendingOperandRef, .PendingOperandRef] 1
      (by decide) (by decide)⟩

/-! C7 -/

theorem words_recombine (x : Nat) (hx : x < 2 ^ 128) :
    x % 2 ^ 64 + x / 2 ^ 64 % 2 ^ 64 * 2 ^ 64 = x := by
  have h0 : (2 : Nat) ^ 64 * 2 ^ 64 = 2 ^ 128 := by rw [← pow_add]
  have h1 : x / 2 ^ 64 < 2 ^ 64 := Nat.div_lt_of_lt_mul (h0 ▸ hx)
  rw [Nat.mod_eq_of_lt h1, Nat.mul_comm]
  exact Nat.mod_add_div x (2 ^ 64)

/-- Helper for C7: truncating the recombined 128-bit words to `w` bits and
reading the low `w` bits back is the claimed masked value. -/
theorem roundtrip_case (w x : Nat) (hx : x < 2 ^ 128) :
    ((x % 2 ^ 64 + x / 2 ^ 64 % 2 ^ 64 * 2 ^ 64) % 2 ^ w) % 2 ^ w =
      x &&& (1 <<< w - 1) := by
  rw [Nat.one_shiftLeft, Nat.and_pow_two_sub_one_eq_mod,
    Nat.mod_mod_of_dvd _ dvd_rfl, words_recombine x hx]

/-- C7: materializing `RawScalarValue { data := x, size := s }` with a
matching scalar layout through `const_scalar_to_backend_value` and
reading back the low `s * 8` bits of the backend constant yields
`x & ((1 << (s * 8)) - 1)`. -/
theorem const_scalar_roundtrip (t : LirTy) (p : Primitive) (x s : Nat)
    (hscalar : (computeLayout defaultDL t).layout.backendRepr = .Scalar p)
    (hsize : s = (computeLayout defaultDL t).layout.size.bytes)
    (_hs1 : 1 ≤ s) (_hs16 : s ≤ 16) (hx : x < 2 ^ 128)
    (_hlow : x % 2 ^ (s * 8) = x) :
    ∃ c, constScalarToBackendValue (computeLayout defaultDL t)
        (.Value ⟨x, s⟩) = .ok c ∧
      c.lowBits (s * 8) = x &&& (1 <<< (s * 8) - 1) := by
  cases t
  case Metadata => simp [computeLayout] at hscalar
  case I8 =>
    have hs : s = 1 := by
      simpa [computeLayout, Size.fromBits, rustDivCeil] using hsize
    subst hs
    exact ⟨⟨8, (x % 2 ^ 64 + x / 2 ^ 64 % 2 ^ 64 * 2 ^ 64) % 2 ^ 8⟩, rfl,
      roundtrip_case 8 x hx⟩
  case I16 =>
    have hs : s = 2 := by
      simpa [computeLayout, Size.fromBits, rustDivCeil] using hsize
    subst hs
    exact ⟨⟨16, (x % 2 ^ 64 + x / 2 ^ 64 % 2 ^ 64 * 2 ^ 64) % 2 ^ 16⟩, rfl,
      roundtrip_case 16 x hx⟩
  case I32 =>
    have hs : s = 4 := by
      simpa [computeLayout, Size.fromBits, rustDivCeil] using hsize
    subst hs
    exact ⟨⟨32, (x % 2 ^ 64 + x / 2 ^ 64 % 2 ^ 64 * 2 ^ 64) % 2 ^ 32⟩, rfl,
      roundtrip_case 32 x hx⟩
  case I64 =>
    have hs : s = 8 := by
      simpa [computeLayout, Size.fromBits, rustDivCeil] using hsize
    subst hs
    exact ⟨⟨64, (x % 2 ^ 64 + x / 2 ^ 64 % 2 ^ 64 * 2 ^ 64) % 2 ^ 64⟩, rfl,
      roundtrip_case 64 x hx⟩
  case I128 =>
    have hs : s = 16 := by
      simpa [computeLayout, Size.fromBits, rustDivCeil] using hsize
    subst hs
    exact ⟨⟨128, (x % 2 ^ 64 + x / 2 ^ 64 % 2 ^ 64 * 2 ^ 64) % 2 ^ 128⟩, rfl,
      roundtrip_case 128 x hx⟩

/-- Witness for C7 at `I32` with `x = 0xDEADBEEF`, `s = 4`. -/
theorem const_scalar_roundtrip_witness :
    ((computeLayout defaultDL .I32).layout.backendRepr =
      .Scalar Primitive.I32) ∧
    (4 = (computeLayout defaultDL .I32).layout.size.bytes) ∧
    (0xDEADBEEF % 2 ^ (4 * 8) = 0xDEADBEEF) ∧
    (∃ c, constScalarToBackendValue (computeLayout defaultDL .I32)
        (.Value ⟨0xDEADBEEF, 4⟩) = .ok c ∧
      c.lowBits (4 * 8) = 0xDEADBEEF &&& (1 <<< (4 * 8) - 1)) :=
  ⟨rfl, rfl, by norm_num,
    const_scalar_roundtrip .I32 .I32 0xDEADBEEF 4 rfl rfl (by norm_num)
      (by norm_num) (by norm_num) (by norm_num)⟩

/-! Lemmas about the predefine/define phases, shared by C2 and C9. -/

theorem mem_insertKey (l : List DefId) (k d : DefId) :
    d ∈ insertKey l k ↔ d = k ∨ d ∈ l := by
  unfold insertKey
  split
  · rename_i hk
    constructor
    · intro h
      exact Or.inr h
    · rintro (rfl | h)
      · exact hk
      · exact h
  · simp [List.mem_cons]

theorem insertKey_self (l : List DefId) (k : DefId) : k ∈ insertKey l k :=
  (mem_insertKey l k k).mpr (Or.inl rfl)

theorem runPredefines_cons_fst (st : CgState) (b : LirBody)
    (rest : List LirBody) :
    (runPredefines st (b :: rest)).1 =
      (runPredefines (predefineBody st b.metadata).1 rest).1 := rfl

theorem runPredefines_cons_snd (st : CgState) (b : LirBody)
    (rest : List LirBody) :
    (runPredefines st (b :: rest)).2 =
      (predefineBody st b.metadata).2 ::
        (runPredefines (predefineBody st b.metadata).1 rest).2 := rfl

theorem runPredefines_instances_mono (bodies : List LirBody) (st : CgState) :
    ∀ d ∈ st.instances, d ∈ (runPredefines st bodies).1.instances := by
  induction bodies generalizing st with
  | nil => intro d hd; exact hd
  | cons b rest ih =>
    intro d hd
    rw [runPredefines_cons_fst]
    exact ih _ d ((mem_insertKey _ _ _).mpr (Or.inr hd))

theorem runPredefines_contains (bodies : List LirBody) (st : CgState) :
    ∀ b ∈ bodies, b.metadata.defId ∈ (runPredefines st bodies).1.instances := by
  induction bodies generalizing st with
  | nil => intro b hb; simp at hb
  | cons c rest ih =>
    intro b hb
    rw [runPredefines_cons_fst]
    rcases List.mem_cons.mp hb with rfl | hb
    · exact runPredefines_instances_mono rest _ _ (insertKey_self _ _)
    · exact ih _ b hb

theorem runPredefines_events_insert (bodies : List LirBody) (st : CgState) :
    ∀ e ∈ (runPredefines st bodies).2, ∃ pre k, e = .Insert pre k := by
  induction bodies generalizing st with
  | nil => intro e he; simp [runPredefines] at he
  | cons b rest ih =>
    intro e he
    rw [runPredefines_cons_snd] at he
    rcases List.mem_cons.mp he with rfl | he
    · exact ⟨st.instances, b.metadata.defId, rfl⟩
    · exact ih _ e he

theorem getFn_after_predefines (bodies : List LirBody) :
    ∀ b ∈ bodies,
      getFn (runPredefines ⟨[], []⟩ bodies).1 b.metadata = true := by
  intro b hb
  have hmem := runPredefines_contains bodies ⟨[], []⟩ b hb
  unfold getFn
  rw [decide_eq_true hmem]
  simp

theorem defineBody_found (st : CgState) (b : LirBody)
    (h : getFn st b.metadata = true) :
    defineBody st b = (st, [.GetFn true]) := by
  simp [defineBody, h]

theorem runDefines_all_found (bodies : List LirBody) (st : CgState)
    (h : ∀ b ∈ bodies, getFn st b.metadata = true) :
    runDefines st bodies =
      (st, bodies.map fun _ => CgEvent.GetFn true) := by
  induction bodies with
  | nil => rfl
  | cons b rest ih =>
    have hb := h b (List.mem_cons_self b rest)
    have hr : ∀ b' ∈ rest, getFn st b'.metadata = true := fun b' hb' =>
      h b' (List.mem_cons_of_mem _ hb')
    simp only [runDefines, defineBody_found st b hb, ih hr, List.map_cons]
    rfl

/-! C2 -/

/-- C2: `compile_lir_unit` predefines every body of the unit before it
defines any body: after the predefine loop the context's `get_fn` finds
every body of the unit, and every `get_fn` observation made during the
define loop (through `get_or_define_fn`) is a hit — no `define_body`
observes `get_fn(metadata) == None`. -/
theorem predefine_before_define (unit : LirUnit) :
    (∀ b ∈ unit.bodies,
      getFn (runPredefines ⟨[], []⟩ unit.bodies).1 b.metadata = true) ∧
    (∀ r : Bool, CgEvent.GetFn r ∈ (compileLirUnit unit).2 → r = true) := by
  refine ⟨getFn_after_predefines unit.bodies, ?_⟩
  intro r hr
  have hsplit : (compileLirUnit unit).2 =
      (runPredefines ⟨[], []⟩ unit.bodies).2 ++
        (runDefines (runPredefines ⟨[], []⟩ unit.bodies).1 unit.bodies).2 :=
    rfl
  rw [hsplit] at hr
  rcases List.mem_append.mp hr with h1 | h2
  · obtain ⟨pre, k, he⟩ :=
      runPredefines_events_insert unit.bodies ⟨[], []⟩ _ h1
    exact CgEvent.noConfusion he
  · rw [runDefines_all_found unit.bodies _
      (getFn_after_predefines unit.bodies)] at h2
    obtain ⟨b, _, he⟩ := List.mem_map.mp h2
    injection he with h
    exact h.symm

/-- A one-body unit used as a witness input. -/
def unitOne : LirUnit := ⟨"unit", [bodyRetI32]⟩

/-- Witness for C2 on a concrete one-body unit. -/
theorem predefine_before_define_witness :
    (bodyRetI32 ∈ unitOne.bodies) ∧
    getFn (runPredefines ⟨[], []⟩ unitOne.bodies).1 bodyRetI32.metadata =
      true :=
  ⟨by decide, (predefine_before_define unitOne).1 bodyRetI32 (by decide)⟩

/-! C9 -/

theorem runPredefines_insert_fresh (bodies : List LirBody) (st : CgState)
    (hnd : (bodies.map (fun b => b.metadata.defId)).Nodup)
    (hdisj : ∀ b ∈ bodies, b.metadata.defId ∉ st.instances) :
    ∀ pre k, CgEvent.Insert pre k ∈ (runPredefines st bodies).2 →
      k ∉ pre := by
  induction bodies generalizing st with
  | nil => intro pre k h; simp [runPredefines] at h
  | cons b rest ih =>
    intro pre k h
    rw [runPredefines_cons_snd] at h
    rcases List.mem_cons.mp h with he | he
    · injection he with h1 h2
      subst h1
      subst h2
      exact hdisj b (List.mem_cons_self b rest)
    · have hnd' : (rest.map (fun b => b.metadata.defId)).Nodup :=
        (List.nodup_cons.mp hnd).2
      have hhead : b.metadata.defId ∉ rest.map (fun b => b.metadata.defId) :=
        (List.nodup_cons.mp hnd).1
      refine ih _ hnd' ?_ pre k he
      intro b' hb' hmem
      rcases (mem_insertKey _ _ _).mp hmem with heq | hmem'
      · exact hhead (heq ▸ List.mem_map_of_mem _ hb')
      · exact hdisj b' (List.mem_cons_of_mem _ hb') hmem'

/-- C9: while compiling one unit whose bodies carry pairwise-distinct
`DefId`s, the `DefId → FunctionValue` instances map never overwrites an
existing key: every insert performed by `predefine_body` (including the
predefine-on-miss path of `get_or_define_fn`, which a predefined unit
never takes) uses a key absent from the map at that moment. -/
theorem defid_map_never_overwrites (unit : LirUnit)
    (hnd : (unit.bodies.map (fun b => b.metadata.defId)).Nodup) :
    ∀ pre k, CgEvent.Insert pre k ∈ (compileLirUnit unit).2 → k ∉ pre := by
  intro pre k h
  have hsplit : (compileLirUnit unit).2 =
      (runPredefines ⟨[], []⟩ unit.bodies).2 ++
        (runDefines (runPredefines ⟨[], []⟩ unit.bodies).1 unit.bodies).2 :=
    rfl
  rw [hsplit] at h
  rcases List.mem_append.mp h with h1 | h2
  · exact runPredefines_insert_fresh unit.bodies ⟨[], []⟩ hnd
      (by intro b hb hmem; simp at hmem) pre k h1
  · rw [runDefines_all_found unit.bodies _
      (getFn_after_predefines unit.bodies)] at h2
    obtain ⟨b, _, he⟩ := List.mem_map.mp h2
    exact CgEvent.noConfusion he

/-- A second body metadata with a distinct `DefId`. -/
def mdBar : LirBodyMetadata :=
  ⟨⟨1⟩, "bar", .Item .Function, false, .External, .Default, .None, .C⟩

/-- A second body with a distinct `DefId`. -/
def bodyBar : LirBody := ⟨mdBar, [⟨.I32, true⟩], [], [⟨[], .Return⟩]⟩

/-- A two-body unit with distinct `DefId`s used as a witness input. -/
def unitTwo : LirUnit := ⟨"unit2", [bodyRetI32, bodyBar]⟩

/-- Witness for C9 on a concrete two-body unit: the first insert records
an empty prior key set, which indeed does not contain the key. -/
theorem defid_map_never_overwrites_witness :
    ((unitTwo.bodies.map (fun b => b.metadata.defId)).Nodup) ∧
    (CgEvent.Insert [] ⟨0⟩ ∈ (compileLirUnit unitTwo).2) ∧
    ((⟨0⟩ : DefId) ∉ ([] : List DefId)) :=
  ⟨by decide, by decide,
    defid_map_never_overwrites unitTwo (by decide) [] ⟨0⟩ (by decide)⟩

end Tide
